import Mathlib

/-!
Verification of `supp_analyses/bootstrap_sequencing_errors.py`.

The program is a block-bootstrap routine over an in-memory genotype matrix:
* `derived_allele_freq` reduces a genotype sub-matrix of one lineage to a
  per-site derived-allele frequency;
* `site_patterns` combines three lineages' frequency vectors into six
  site-pattern sums (ABBA, BABA, BBAA, BAAA, ABAA, AABA);
* `genotype_matrix_bootstrap` repeatedly assembles a resampled genome from
  1000 random 100 kb windows and records the six statistics per replicate.

Embedding choices: a genotype matrix is a `List (List ℚ)` (rows = sites,
columns = individuals); numpy double arithmetic is modelled by exact rational
arithmetic; genomic positions are naturals; the global numpy random state is
modelled by an explicit stream `rand : ℕ → ℕ`, each draw reduced modulo
99 900 001 exactly as `np.random.randint(99_900_001)` constrains its output.
-/

namespace Dplus

/-- Elementwise combination of three equal-length vectors, the shallow
embedding of a numpy ternary elementwise expression such as
`(1 - p1) * p2 * p3`. -/
def zip3With (f : ℚ → ℚ → ℚ → ℚ) : List ℚ → List ℚ → List ℚ → List ℚ
  | a :: as, b :: bs, c :: cs => f a b c :: zip3With f as bs cs
  | _, _, _ => []

/-- Embedding of `derived_allele_freq` (lines 9–26):
`genotype_matrix[:, taxon].sum(axis=1) / float(len(taxon))` — for every row,
sum the entries at the columns listed in `taxon` and divide by the number of
individuals in the lineage. -/
def derived_allele_freq (genotype_matrix : List (List ℚ)) (taxon : List ℕ) :
    List ℚ :=
  genotype_matrix.map
    (fun row => (taxon.map (fun i => row.getD i 0)).sum / (taxon.length : ℚ))

/-- Embedding of `site_patterns` (lines 29–57): per-site frequencies for the
three lineages, then the six site-pattern sums, returned as a tuple in the
source's order `(abba, baba, bbaa, baaa, abaa, aaba)`. -/
def site_patterns (genotype_matrix : List (List ℚ))
    (p1_idx p2_idx p3_idx : List ℕ) : ℚ × ℚ × ℚ × ℚ × ℚ × ℚ :=
  let p1 := derived_allele_freq genotype_matrix p1_idx
  let p2 := derived_allele_freq genotype_matrix p2_idx
  let p3 := derived_allele_freq genotype_matrix p3_idx
  let abba := (zip3With (fun a b c => (1 - a) * b * c) p1 p2 p3).sum
  let baba := (zip3With (fun a b c => a * (1 - b) * c) p1 p2 p3).sum
  let bbaa := (zip3With (fun a b c => a * b * (1 - c)) p1 p2 p3).sum
  let baaa := (zip3With (fun a b c => a * (1 - b) * (1 - c)) p1 p2 p3).sum
  let abaa := (zip3With (fun a b c => (1 - a) * b * (1 - c)) p1 p2 p3).sum
  let aaba := (zip3With (fun a b c => (1 - a) * (1 - b) * c) p1 p2 p3).sum
  (abba, baba, bbaa, baaa, abaa, aaba)

/-- Rows of the genotype matrix whose parallel position lies in the closed
window `[start, start + 100000]`, in their original relative order
(lines 93–95: `np.where((start <= pos) & (pos <= end))` then row subsetting). -/
def windowed_matrix (genotype_matrix : List (List ℚ))
    (variable_positions : List ℕ) (start : ℕ) : List (List ℚ) :=
  ((genotype_matrix.zip variable_positions).filter
      (fun rv => decide (start ≤ rv.2) && decide (rv.2 ≤ start + 100000))).map
    Prod.fst

/-- Embedding of `genotype_matrix_bootstrap` (lines 60–111).  The outer
`foldl` mirrors the replicate loop appending each replicate's six scalars to
six growing arrays; the inner `foldl` mirrors the 1000-window loop
concatenating windowed row blocks onto the bootstrapped genome.  The `j`-th
window of replicate `i` uses the `(i * 1000 + j)`-th value of the random
stream, reduced into `[0, 99900000]` as `np.random.randint(99_900_001)`
guarantees. -/
def genotype_matrix_bootstrap (genotype_matrix : List (List ℚ))
    (variable_positions : List ℕ) (n_replicates : ℕ) (rand : ℕ → ℕ) :
    List ℚ × List ℚ × List ℚ × List ℚ × List ℚ × List ℚ :=
  (List.range n_replicates).foldl
    (fun acc i =>
      let bootstrapped_genome :=
        (List.range 1000).foldl
          (fun bg j =>
            let start := rand (i * 1000 + j) % 99900001
            bg ++ windowed_matrix genotype_matrix variable_positions start)
          []
      let s := site_patterns bootstrapped_genome [0] [1] [2]
      (acc.1 ++ [s.1], acc.2.1 ++ [s.2.1], acc.2.2.1 ++ [s.2.2.1],
       acc.2.2.2.1 ++ [s.2.2.2.1], acc.2.2.2.2.1 ++ [s.2.2.2.2.1],
       acc.2.2.2.2.2 ++ [s.2.2.2.2.2]))
    ([], [], [], [], [], [])

/-- The per-row value computed by `derived_allele_freq`: the sum of the
row's entries at the lineage's columns divided by the lineage size.
`derived_allele_freq` is definitionally `List.map` of this function. -/
def row_freq (taxon : List ℕ) (row : List ℚ) : ℚ :=
  (taxon.map (fun i => row.getD i 0)).sum / (taxon.length : ℚ)

/-- The resampled genome of replicate `i` as the bootstrap loop builds it:
the concatenation, in window order, of the 1000 windowed row blocks, window
`j` selecting the rows whose position lies in
`[rand (i*1000+j) % 99900001, rand (i*1000+j) % 99900001 + 100000]`. -/
def replicate_genome (genotype_matrix : List (List ℚ))
    (variable_positions : List ℕ) (rand : ℕ → ℕ) (i : ℕ) : List (List ℚ) :=
  ((List.range 1000).map
    (fun j =>
      windowed_matrix genotype_matrix variable_positions
        (rand (i * 1000 + j) % 99900001))).flatten

/-- The six statistics of replicate `i`: the site-pattern counter applied to
the replicate's resampled genome with lineages `[0]`, `[1]`, `[2]`. -/
def replicate_stats (genotype_matrix : List (List ℚ))
    (variable_positions : List ℕ) (rand : ℕ → ℕ) (i : ℕ) :
    ℚ × ℚ × ℚ × ℚ × ℚ × ℚ :=
  site_patterns (replicate_genome genotype_matrix variable_positions rand i)
    [0] [1] [2]

end Dplus

namespace Dplus

/-! ### Helper lemmas -/

theorem derived_allele_freq_eq_map (gm : List (List ℚ)) (taxon : List ℕ) :
    derived_allele_freq gm taxon = gm.map (row_freq taxon) := rfl

theorem zip3With_map3 {α : Type} (f : ℚ → ℚ → ℚ → ℚ) (g1 g2 g3 : α → ℚ) :
    ∀ l : List α,
      zip3With f (l.map g1) (l.map g2) (l.map g3) =
        l.map (fun x => f (g1 x) (g2 x) (g3 x))
  | [] => rfl
  | a :: l => by
    simp only [List.map_cons, zip3With, zip3With_map3 f g1 g2 g3 l]

theorem getD_map_of_lt {α β : Type} (f : α → β) (d1 : α) (d2 : β) :
    ∀ (l : List α) (k : ℕ), k < l.length → (l.map f).getD k d2 = f (l.getD k d1)
  | [], _, h => absurd h (by simp)
  | _ :: _, 0, _ => rfl
  | _ :: l, k + 1, h => getD_map_of_lt f d1 d2 l k (Nat.lt_of_succ_lt_succ h)

theorem sum_map_eq_sum_range {α : Type} (f : α → ℚ) (d : α) :
    ∀ l : List α, (l.map f).sum = ∑ k in Finset.range l.length, f (l.getD k d)
  | [] => by simp
  | a :: l => by
    rw [List.map_cons, List.sum_cons, sum_map_eq_sum_range f d l,
      List.length_cons, Finset.sum_range_succ']
    simp [add_comm]

theorem foldl_concat {α β : Type} (w : α → List β) :
    ∀ (l : List α) (init : List β),
      l.foldl (fun acc x => acc ++ w x) init = init ++ (l.map w).flatten
  | [], init => by simp
  | x :: xs, init => by
    simp [List.foldl_cons, foldl_concat w xs, List.append_assoc]

/-- C6: with zero rows every frequency vector is empty, so all six sums
are `0`. -/
theorem site_patterns_nil (p1_idx p2_idx p3_idx : List ℕ) :
    site_patterns [] p1_idx p2_idx p3_idx = (0, 0, 0, 0, 0, 0) := rfl

/-- C9: on the 3×3 example matrix with singleton lineages the frequencies are
the raw columns and the six sums are `(1, 1, 1, 0, 0, 0)`. -/
theorem site_patterns_example :
    derived_allele_freq [[0, 1, 1], [1, 0, 1], [1, 1, 0]] [0] = [0, 1, 1] ∧
    derived_allele_freq [[0, 1, 1], [1, 0, 1], [1, 1, 0]] [1] = [1, 0, 1] ∧
    derived_allele_freq [[0, 1, 1], [1, 0, 1], [1, 1, 0]] [2] = [1, 1, 0] ∧
    site_patterns [[0, 1, 1], [1, 0, 1], [1, 1, 0]] [0] [1] [2] =
      (1, 1, 1, 0, 0, 0) := by
  refine ⟨?_, ?_, ?_, ?_⟩ <;> norm_num [derived_allele_freq, site_patterns, zip3With]

theorem zip3_sum_eq_range_sum (gm : List (List ℚ)) (t1 t2 t3 : List ℕ)
    (φ : ℚ → ℚ → ℚ → ℚ) :
    (zip3With φ (derived_allele_freq gm t1) (derived_allele_freq gm t2)
        (derived_allele_freq gm t3)).sum =
      ∑ k in Finset.range gm.length,
        φ ((derived_allele_freq gm t1).getD k 0)
          ((derived_allele_freq gm t2).getD k 0)
          ((derived_allele_freq gm t3).getD k 0) := by
  rw [derived_allele_freq_eq_map gm t1, derived_allele_freq_eq_map gm t2,
    derived_allele_freq_eq_map gm t3, zip3With_map3,
    sum_map_eq_sum_range _ ([] : List ℚ)]
  refine Finset.sum_congr rfl (fun k hk => ?_)
  rw [Finset.mem_range] at hk
  rw [getD_map_of_lt (row_freq t1) [] 0 gm k hk,
    getD_map_of_lt (row_freq t2) [] 0 gm k hk,
    getD_map_of_lt (row_freq t3) [] 0 gm k hk]

/-- C1: `site_patterns` computes per-site frequencies through
`derived_allele_freq` and returns, in the order
(ABBA, BABA, BBAA, BAAA, ABAA, AABA), the sums over all sites of the six
stated products. -/
theorem site_patterns_formula (gm : List (List ℚ)) (p1_idx p2_idx p3_idx : List ℕ) :
    site_patterns gm p1_idx p2_idx p3_idx =
      (∑ k in Finset.range gm.length,
         (1 - (derived_allele_freq gm p1_idx).getD k 0) *
           (derived_allele_freq gm p2_idx).getD k 0 *
           (derived_allele_freq gm p3_idx).getD k 0,
       ∑ k in Finset.range gm.length,
         (derived_allele_freq gm p1_idx).getD k 0 *
           (1 - (derived_allele_freq gm p2_idx).getD k 0) *
           (derived_allele_freq gm p3_idx).getD k 0,
       ∑ k in Finset.range gm.length,
         (derived_allele_freq gm p1_idx).getD k 0 *
           (derived_allele_freq gm p2_idx).getD k 0 *
           (1 - (derived_allele_freq gm p3_idx).getD k 0),
       ∑ k in Finset.range gm.length,
         (derived_allele_freq gm p1_idx).getD k 0 *
           (1 - (derived_allele_freq gm p2_idx).getD k 0) *
           (1 - (derived_allele_freq gm p3_idx).getD k 0),
       ∑ k in Finset.range gm.length,
         (1 - (derived_allele_freq gm p1_idx).getD k 0) *
           (derived_allele_freq gm p2_idx).getD k 0 *
           (1 - (derived_allele_freq gm p3_idx).getD k 0),
       ∑ k in Finset.range gm.length,
         (1 - (derived_allele_freq gm p1_idx).getD k 0) *
           (1 - (derived_allele_freq gm p2_idx).getD k 0) *
           (derived_allele_freq gm p3_idx).getD k 0) := by
  simp only [site_patterns]
  rw [zip3_sum_eq_range_sum gm p1_idx p2_idx p3_idx (fun a b c => (1 - a) * b * c),
    zip3_sum_eq_range_sum gm p1_idx p2_idx p3_idx (fun a b c => a * (1 - b) * c),
    zip3_sum_eq_range_sum gm p1_idx p2_idx p3_idx (fun a b c => a * b * (1 - c)),
    zip3_sum_eq_range_sum gm p1_idx p2_idx p3_idx (fun a b c => a * (1 - b) * (1 - c)),
    zip3_sum_eq_range_sum gm p1_idx p2_idx p3_idx (fun a b c => (1 - a) * b * (1 - c)),
    zip3_sum_eq_range_sum gm p1_idx p2_idx p3_idx (fun a b c => (1 - a) * (1 - b) * c)]

/-- C2: `derived_allele_freq` returns one value per site, and at each site
the sum of the lineage's genotype values divided by the lineage size. -/
theorem derived_allele_freq_contract (gm : List (List ℚ)) (taxon : List ℕ)
    (hne : taxon ≠ [])
    (hvalid : ∀ row ∈ gm, ∀ i ∈ taxon, i < row.length) :
    (derived_allele_freq gm taxon).length = gm.length ∧
    ∀ k, k < gm.length →
      (derived_allele_freq gm taxon).getD k 0 =
        (taxon.map (fun i => (gm.getD k []).getD i 0)).sum / (taxon.length : ℚ) := by
  refine ⟨List.length_map _ _, fun k hk => ?_⟩
  exact getD_map_of_lt (row_freq taxon) [] 0 gm k hk

theorem derived_allele_freq_contract_witness :
    ((([0, 1] : List ℕ) ≠ []) ∧
      (∀ row ∈ ([[0, 1], [1, 1]] : List (List ℚ)), ∀ i ∈ ([0, 1] : List ℕ),
        i < row.length)) ∧
    ((derived_allele_freq [[0, 1], [1, 1]] [0, 1]).length = 2 ∧
      ∀ k, k < 2 →
        (derived_allele_freq [[(0 : ℚ), 1], [1, 1]] [0, 1]).getD k 0 =
          (([0, 1] : List ℕ).map
            (fun i => (([[(0 : ℚ), 1], [1, 1]] : List (List ℚ)).getD k []).getD i 0)).sum /
            ((2 : ℕ) : ℚ)) := by
  have h1 : (([0, 1] : List ℕ)) ≠ [] := by simp
  have h2 : ∀ row ∈ ([[0, 1], [1, 1]] : List (List ℚ)), ∀ i ∈ ([0, 1] : List ℕ),
      i < row.length := by
    intro row hrow i hi
    fin_cases hrow <;> fin_cases hi <;> simp
  exact ⟨⟨h1, h2⟩, derived_allele_freq_contract [[0, 1], [1, 1]] [0, 1] h1 h2⟩

/-- C5: for a lineage with a single individual the frequency vector is the
raw genotype column of that individual. -/
theorem derived_allele_freq_singleton (gm : List (List ℚ)) (c : ℕ)
    (hvalid : ∀ row ∈ gm, c < row.length) :
    derived_allele_freq gm [c] = gm.map (fun row => row.getD c 0) := by
  unfold derived_allele_freq
  refine List.map_congr_left (fun row _ => ?_)
  simp

theorem derived_allele_freq_singleton_witness :
    (∀ row ∈ ([[0, 1], [1, 1]] : List (List ℚ)), 1 < row.length) ∧
    derived_allele_freq [[0, 1], [1, 1]] [1] =
      ([[(0 : ℚ), 1], [1, 1]] : List (List ℚ)).map (fun row => row.getD 1 0) := by
  have h : ∀ row ∈ ([[0, 1], [1, 1]] : List (List ℚ)), 1 < row.length := by
    intro row hrow
    fin_cases hrow <;> simp
  exact ⟨h, derived_allele_freq_singleton [[0, 1], [1, 1]] 1 h⟩

theorem zip3_sum_perm (gm1 gm2 : List (List ℚ)) (h : gm1.Perm gm2)
    (t1 t2 t3 : List ℕ) (φ : ℚ → ℚ → ℚ → ℚ) :
    (zip3With φ (derived_allele_freq gm1 t1) (derived_allele_freq gm1 t2)
        (derived_allele_freq gm1 t3)).sum =
      (zip3With φ (derived_allele_freq gm2 t1) (derived_allele_freq gm2 t2)
        (derived_allele_freq gm2 t3)).sum := by
  rw [derived_allele_freq_eq_map gm1 t1, derived_allele_freq_eq_map gm1 t2,
    derived_allele_freq_eq_map gm1 t3, derived_allele_freq_eq_map gm2 t1,
    derived_allele_freq_eq_map gm2 t2, derived_allele_freq_eq_map gm2 t3,
    zip3With_map3, zip3With_map3]
  exact (h.map _).sum_eq

/-- C7: the six sums are invariant under any permutation of the rows of the
genotype matrix (exact arithmetic: addition is commutative). -/
theorem site_patterns_perm (gm1 gm2 : List (List ℚ))
    (p1_idx p2_idx p3_idx : List ℕ) (h : gm1.Perm gm2) :
    site_patterns gm1 p1_idx p2_idx p3_idx =
      site_patterns gm2 p1_idx p2_idx p3_idx := by
  simp only [site_patterns]
  rw [zip3_sum_perm gm1 gm2 h p1_idx p2_idx p3_idx (fun a b c => (1 - a) * b * c),
    zip3_sum_perm gm1 gm2 h p1_idx p2_idx p3_idx (fun a b c => a * (1 - b) * c),
    zip3_sum_perm gm1 gm2 h p1_idx p2_idx p3_idx (fun a b c => a * b * (1 - c)),
    zip3_sum_perm gm1 gm2 h p1_idx p2_idx p3_idx (fun a b c => a * (1 - b) * (1 - c)),
    zip3_sum_perm gm1 gm2 h p1_idx p2_idx p3_idx (fun a b c => (1 - a) * b * (1 - c)),
    zip3_sum_perm gm1 gm2 h p1_idx p2_idx p3_idx (fun a b c => (1 - a) * (1 - b) * c)]

theorem site_patterns_perm_witness :
    ([[(0 : ℚ), 1, 1], [1, 0, 1]] : List (List ℚ)).Perm [[1, 0, 1], [0, 1, 1]] ∧
    site_patterns [[(0 : ℚ), 1, 1], [1, 0, 1]] [0] [1] [2] =
      site_patterns [[(1 : ℚ), 0, 1], [0, 1, 1]] [0] [1] [2] :=
  ⟨List.Perm.swap _ _ _,
    site_patterns_perm [[0, 1, 1], [1, 0, 1]] [[1, 0, 1], [0, 1, 1]] [0] [1] [2]
      (List.Perm.swap _ _ _)⟩

theorem row_freq_unit (taxon : List ℕ) (row : List ℚ)
    (hbin : ∀ x ∈ row, x = 0 ∨ x = 1) :
    0 ≤ row_freq taxon row ∧ row_freq taxon row ≤ 1 := by
  have hmem : ∀ y ∈ taxon.map (fun i => row.getD i 0), 0 ≤ y ∧ y ≤ 1 := by
    intro y hy
    obtain ⟨i, _, rfl⟩ := List.mem_map.1 hy
    by_cases h : i < row.length
    · rcases hbin _ (List.getD_eq_getElem row 0 h ▸ List.getElem_mem h) with h0 | h1
      · rw [h0]; norm_num
      · rw [h1]; norm_num
    · rw [List.getD_eq_default row 0 (Nat.le_of_not_lt h)]; norm_num
  have h0 : 0 ≤ (taxon.map (fun i => row.getD i 0)).sum :=
    List.sum_nonneg (fun y hy => (hmem y hy).1)
  have h1 : (taxon.map (fun i => row.getD i 0)).sum ≤ (taxon.length : ℚ) := by
    have := List.sum_le_card_nsmul (taxon.map (fun i => row.getD i 0)) 1
      (fun y hy => (hmem y hy).2)
    simpa [nsmul_eq_mul] using this
  rcases List.eq_nil_or_concat taxon with rfl | _
  · simp [row_freq]
  · rcases Nat.eq_zero_or_pos taxon.length with hz | hp
    · simp [row_freq, hz]
    · have hpos : (0 : ℚ) < (taxon.length : ℚ) := by exact_mod_cast hp
      exact ⟨div_nonneg h0 hpos.le, (div_le_one hpos).2 h1⟩

theorem mul3_le_one {x y z : ℚ} (hx0 : 0 ≤ x) (hx1 : x ≤ 1) (hy0 : 0 ≤ y)
    (hy1 : y ≤ 1) (hz0 : 0 ≤ z) (hz1 : z ≤ 1) : x * y * z ≤ 1 :=
  mul_le_one₀ (mul_le_one₀ hx1 hy0 hy1) hz0 hz1

theorem zip3_sum_le_length (gm : List (List ℚ)) (t1 t2 t3 : List ℕ)
    (φ : ℚ → ℚ → ℚ → ℚ)
    (hφ : ∀ a b c, 0 ≤ a → a ≤ 1 → 0 ≤ b → b ≤ 1 → 0 ≤ c → c ≤ 1 →
      φ a b c ≤ 1)
    (hbin : ∀ row ∈ gm, ∀ x ∈ row, x = 0 ∨ x = 1) :
    (zip3With φ (derived_allele_freq gm t1) (derived_allele_freq gm t2)
        (derived_allele_freq gm t3)).sum ≤ (gm.length : ℚ) := by
  rw [derived_allele_freq_eq_map gm t1, derived_allele_freq_eq_map gm t2,
    derived_allele_freq_eq_map gm t3, zip3With_map3]
  have hle : ∀ y ∈ gm.map
      (fun row => φ (row_freq t1 row) (row_freq t2 row) (row_freq t3 row)),
      y ≤ 1 := by
    intro y hy
    obtain ⟨row, hrow, rfl⟩ := List.mem_map.1 hy
    obtain ⟨h10, h11⟩ := row_freq_unit t1 row (hbin row hrow)
    obtain ⟨h20, h21⟩ := row_freq_unit t2 row (hbin row hrow)
    obtain ⟨h30, h31⟩ := row_freq_unit t3 row (hbin row hrow)
    exact hφ _ _ _ h10 h11 h20 h21 h30 h31
  have := List.sum_le_card_nsmul
    (gm.map (fun row => φ (row_freq t1 row) (row_freq t2 row) (row_freq t3 row)))
    1 hle
  simpa [nsmul_eq_mul] using this

/-- C8: on a 0/1 genotype matrix each of the six site-pattern sums is at most
the number of rows. -/
theorem site_patterns_le_rows (gm : List (List ℚ))
    (p1_idx p2_idx p3_idx : List ℕ)
    (hbin : ∀ row ∈ gm, ∀ x ∈ row, x = 0 ∨ x = 1) :
    (site_patterns gm p1_idx p2_idx p3_idx).1 ≤ (gm.length : ℚ) ∧
    (site_patterns gm p1_idx p2_idx p3_idx).2.1 ≤ (gm.length : ℚ) ∧
    (site_patterns gm p1_idx p2_idx p3_idx).2.2.1 ≤ (gm.length : ℚ) ∧
    (site_patterns gm p1_idx p2_idx p3_idx).2.2.2.1 ≤ (gm.length : ℚ) ∧
    (site_patterns gm p1_idx p2_idx p3_idx).2.2.2.2.1 ≤ (gm.length : ℚ) ∧
    (site_patterns gm p1_idx p2_idx p3_idx).2.2.2.2.2 ≤ (gm.length : ℚ) := by
  simp only [site_patterns]
  refine ⟨?_, ?_, ?_, ?_, ?_, ?_⟩ <;>
    refine zip3_sum_le_length gm p1_idx p2_idx p3_idx _ ?_ hbin <;>
    intro a b c h1 h2 h3 h4 h5 h6 <;>
    exact mul3_le_one (by linarith) (by linarith) (by linarith) (by linarith)
      (by linarith) (by linarith)

theorem site_patterns_le_rows_witness :
    (∀ row ∈ ([[0, 1, 1], [1, 0, 1]] : List (List ℚ)), ∀ x ∈ row,
      x = 0 ∨ x = 1) ∧
    ((site_patterns [[(0 : ℚ), 1, 1], [1, 0, 1]] [0] [1] [2]).1 ≤ (2 : ℚ) ∧
     (site_patterns [[(0 : ℚ), 1, 1], [1, 0, 1]] [0] [1] [2]).2.1 ≤ (2 : ℚ) ∧
     (site_patterns [[(0 : ℚ), 1, 1], [1, 0, 1]] [0] [1] [2]).2.2.1 ≤ (2 : ℚ) ∧
     (site_patterns [[(0 : ℚ), 1, 1], [1, 0, 1]] [0] [1] [2]).2.2.2.1 ≤ (2 : ℚ) ∧
     (site_patterns [[(0 : ℚ), 1, 1], [1, 0, 1]] [0] [1] [2]).2.2.2.2.1 ≤ (2 : ℚ) ∧
     (site_patterns [[(0 : ℚ), 1, 1], [1, 0, 1]] [0] [1] [2]).2.2.2.2.2 ≤ (2 : ℚ)) := by
  have h : ∀ row ∈ ([[0, 1, 1], [1, 0, 1]] : List (List ℚ)), ∀ x ∈ row,
      x = 0 ∨ x = 1 := by
    intro row hrow x hx
    fin_cases hrow <;> fin_cases hx <;> norm_num
  exact ⟨h, site_patterns_le_rows [[0, 1, 1], [1, 0, 1]] [0] [1] [2] h⟩

theorem sum_map_add {α : Type} (f g : α → ℚ) :
    ∀ l : List α, (l.map fun x => f x + g x).sum = (l.map f).sum + (l.map g).sum
  | [] => by simp
  | a :: l => by
    simp only [List.map_cons, List.sum_cons, sum_map_add f g l]
    ring

theorem eight_sums (r1 r2 r3 : List ℚ → ℚ) :
    ∀ gm : List (List ℚ),
      (gm.map fun ρ => (1 - r1 ρ) * r2 ρ * r3 ρ).sum +
        (gm.map fun ρ => r1 ρ * (1 - r2 ρ) * r3 ρ).sum +
        (gm.map fun ρ => r1 ρ * r2 ρ * (1 - r3 ρ)).sum +
        (gm.map fun ρ => r1 ρ * (1 - r2 ρ) * (1 - r3 ρ)).sum +
        (gm.map fun ρ => (1 - r1 ρ) * r2 ρ * (1 - r3 ρ)).sum +
        (gm.map fun ρ => (1 - r1 ρ) * (1 - r2 ρ) * r3 ρ).sum +
        (gm.map fun ρ => r1 ρ * r2 ρ * r3 ρ).sum +
        (gm.map fun ρ => (1 - r1 ρ) * (1 - r2 ρ) * (1 - r3 ρ)).sum =
        (gm.length : ℚ)
  | [] => by simp
  | row :: rest => by
    have ih := eight_sums r1 r2 r3 rest
    simp only [List.map_cons, List.sum_cons, List.length_cons]
    push_cast
    linear_combination ih

/-- C10: the six returned sums plus the two uncomputed pattern sums
(all-derived and all-ancestral) total exactly the number of rows, because
the eight per-site products partition `1`. -/
theorem site_patterns_partition (gm : List (List ℚ))
    (p1_idx p2_idx p3_idx : List ℕ) :
    (site_patterns gm p1_idx p2_idx p3_idx).1 +
      (site_patterns gm p1_idx p2_idx p3_idx).2.1 +
      (site_patterns gm p1_idx p2_idx p3_idx).2.2.1 +
      (site_patterns gm p1_idx p2_idx p3_idx).2.2.2.1 +
      (site_patterns gm p1_idx p2_idx p3_idx).2.2.2.2.1 +
      (site_patterns gm p1_idx p2_idx p3_idx).2.2.2.2.2 +
      (zip3With (fun a b c => a * b * c) (derived_allele_freq gm p1_idx)
        (derived_allele_freq gm p2_idx) (derived_allele_freq gm p3_idx)).sum +
      (zip3With (fun a b c => (1 - a) * (1 - b) * (1 - c))
        (derived_allele_freq gm p1_idx) (derived_allele_freq gm p2_idx)
        (derived_allele_freq gm p3_idx)).sum = (gm.length : ℚ) := by
  simp only [site_patterns]
  rw [derived_allele_freq_eq_map gm p1_idx, derived_allele_freq_eq_map gm p2_idx,
    derived_allele_freq_eq_map gm p3_idx]
  simp only [zip3With_map3]
  exact eight_sums (row_freq p1_idx) (row_freq p2_idx) (row_freq p3_idx) gm

theorem genotype_matrix_bootstrap_eq (gm : List (List ℚ)) (vp : List ℕ)
    (rand : ℕ → ℕ) :
    ∀ n, genotype_matrix_bootstrap gm vp n rand =
      ((List.range n).map fun i => (replicate_stats gm vp rand i).1,
       (List.range n).map fun i => (replicate_stats gm vp rand i).2.1,
       (List.range n).map fun i => (replicate_stats gm vp rand i).2.2.1,
       (List.range n).map fun i => (replicate_stats gm vp rand i).2.2.2.1,
       (List.range n).map fun i => (replicate_stats gm vp rand i).2.2.2.2.1,
       (List.range n).map fun i => (replicate_stats gm vp rand i).2.2.2.2.2) := by
  intro n
  induction n with
  | zero => rfl
  | succ n ih =>
    have hrep : (List.range 1000).foldl
        (fun bg j => bg ++ windowed_matrix gm vp (rand (n * 1000 + j) % 99900001)) [] =
        replicate_genome gm vp rand n := by
      rw [foldl_concat (fun j => windowed_matrix gm vp (rand (n * 1000 + j) % 99900001))
        (List.range 1000) [], List.nil_append]
      rfl
    unfold genotype_matrix_bootstrap at ih ⊢
    rw [List.range_succ n, List.foldl_append, ih, List.foldl_cons, List.foldl_nil, hrep]
    simp only [replicate_stats, List.map_append, List.map_cons, List.map_nil]

theorem range_map_getD (g : ℕ → ℚ) (n i : ℕ) (h : i < n) :
    ((List.range n).map g).getD i 0 = g i := by
  rw [getD_map_of_lt g 0 0 (List.range n) i (by simpa using h),
    List.getD_eq_getElem (List.range n) 0 (by simpa using h),
    List.getElem_range]

/-- C4: called with `n` replicates the driver returns six arrays each of
length exactly `n`. -/
theorem bootstrap_output_lengths (gm : List (List ℚ)) (vp : List ℕ)
    (n : ℕ) (rand : ℕ → ℕ) :
    (genotype_matrix_bootstrap gm vp n rand).1.length = n ∧
    (genotype_matrix_bootstrap gm vp n rand).2.1.length = n ∧
    (genotype_matrix_bootstrap gm vp n rand).2.2.1.length = n ∧
    (genotype_matrix_bootstrap gm vp n rand).2.2.2.1.length = n ∧
    (genotype_matrix_bootstrap gm vp n rand).2.2.2.2.1.length = n ∧
    (genotype_matrix_bootstrap gm vp n rand).2.2.2.2.2.length = n := by
  rw [genotype_matrix_bootstrap_eq gm vp rand n]
  simp

/-- C3: every random window start lies in `[0, 99900000]`, and the `i`-th
entry of each of the six output arrays is the corresponding component of the
site-pattern counter applied, with lineages `{0}`, `{1}`, `{2}`, to the
genome assembled by concatenating — in window order, rows kept in their
original relative order — the rows whose position lies in the closed window
`[start, start + 100000]` for each of the replicate's 1000 window draws. -/
theorem bootstrap_replicate_structure (gm : List (List ℚ)) (vp : List ℕ)
    (n : ℕ) (rand : ℕ → ℕ) (i : ℕ) (hi : i < n) :
    (∀ j, j < 1000 → rand (i * 1000 + j) % 99900001 ≤ 99900000) ∧
    ((genotype_matrix_bootstrap gm vp n rand).1.getD i 0,
     (genotype_matrix_bootstrap gm vp n rand).2.1.getD i 0,
     (genotype_matrix_bootstrap gm vp n rand).2.2.1.getD i 0,
     (genotype_matrix_bootstrap gm vp n rand).2.2.2.1.getD i 0,
     (genotype_matrix_bootstrap gm vp n rand).2.2.2.2.1.getD i 0,
     (genotype_matrix_bootstrap gm vp n rand).2.2.2.2.2.getD i 0) =
      site_patterns (replicate_genome gm vp rand i) [0] [1] [2] := by
  constructor
  · intro j _
    exact Nat.lt_succ_iff.mp (Nat.mod_lt _ (by norm_num))
  · rw [genotype_matrix_bootstrap_eq gm vp rand n]
    rw [range_map_getD _ n i hi, range_map_getD _ n i hi, range_map_getD _ n i hi,
      range_map_getD _ n i hi, range_map_getD _ n i hi, range_map_getD _ n i hi]
    have hs : replicate_stats gm vp rand i =
        site_patterns (replicate_genome gm vp rand i) [0] [1] [2] := rfl
    rw [← hs]

theorem bootstrap_replicate_structure_witness :
    (0 : ℕ) < 1 ∧
    ((∀ j, j < 1000 → (fun _ : ℕ => 0) (0 * 1000 + j) % 99900001 ≤ 99900000) ∧
      ((genotype_matrix_bootstrap [[0, 1, 1]] [10] 1 (fun _ => 0)).1.getD 0 0,
       (genotype_matrix_bootstrap [[0, 1, 1]] [10] 1 (fun _ => 0)).2.1.getD 0 0,
       (genotype_matrix_bootstrap [[0, 1, 1]] [10] 1 (fun _ => 0)).2.2.1.getD 0 0,
       (genotype_matrix_bootstrap [[0, 1, 1]] [10] 1 (fun _ => 0)).2.2.2.1.getD 0 0,
       (genotype_matrix_bootstrap [[0, 1, 1]] [10] 1 (fun _ => 0)).2.2.2.2.1.getD 0 0,
       (genotype_matrix_bootstrap [[0, 1, 1]] [10] 1 (fun _ => 0)).2.2.2.2.2.getD 0 0) =
        site_patterns (replicate_genome [[0, 1, 1]] [10] (fun _ => 0) 0)
          [0] [1] [2]) :=
  ⟨by decide,
    bootstrap_replicate_structure [[0, 1, 1]] [10] 1 (fun _ => 0) 0 (by decide)⟩

end Dplus
